import Mathlib

/-!
Shallow embedding of the pulsed stretched-exponential model evaluator of the
bdata repository: the relaxation kernels and integral wrappers of
`FastNumericalIntegration_src/integration_fns.cpp` and the `Integrator`
class of `integrator.pyx`.  The repository's quadrature engine
(`DEIntegrator.h`) is an external dependency of `integration_fns.cpp`; every
definition below is parameterized over an arbitrary quadrature function
`Q : Quad`, so the theorems hold for any engine and speak only about the
code visible in the repository: which integrand, which bounds and which
tolerance are handed to the engine, and how its scalar result is
post-processed.  Machine doubles are modelled as real numbers and the
C `pow` as the real power `Real.rpow`; `numpy.inf` is the
distinguished value `Val.inf`.
-/

namespace Bdata

/-- Type of a quadrature engine: `Q f a b tol` is the engine's estimate of
the integral of `f` from `a` to `b` at target tolerance `tol`
(`DEIntegrator<F>::Integrate(f, a, b, tol)`). -/
def Quad : Type := (ℝ → ℝ) → ℝ → ℝ → ℝ → ℝ

/-- Single-component stretched-exponential integrand, from
`StrExp::operator()` in `integration_fns.cpp`:
`exp((tprime-t)/lifetime) * exp(-pow((t-tprime)*lambda, beta))`. -/
noncomputable def StrExp (t Lambda Beta lifetime : ℝ) (tprime : ℝ) : ℝ :=
  Real.exp ((tprime - t) / lifetime) *
    Real.exp (-(((t - tprime) * Lambda) ^ Beta))

/-- Two-component (mixed) stretched-exponential integrand, from
`MixedStrExp::operator()` in `integration_fns.cpp`. -/
noncomputable def MixedStrExp
    (t Lambda1 Beta1 Lambda2 Beta2 alpha lifetime : ℝ) (tprime : ℝ) : ℝ :=
  Real.exp ((tprime - t) / lifetime) *
    (alpha * Real.exp (-(((t - tprime) * Lambda1) ^ Beta1)) +
      (1 - alpha) * Real.exp (-(((t - tprime) * Lambda2) ^ Beta2)))

/-- Wrapper `IntegralStrExp(t, tprime, l, b, life).out` of
`integration_fns.cpp`: integrate `StrExp(t,l,b,life)` from `0` to `tprime`
at tolerance `1e-6`. -/
noncomputable def IntegralStrExp (Q : Quad) (t tprime l b life : ℝ) : ℝ :=
  Q (StrExp t l b life) 0 tprime (1e-6)

/-- Wrapper `IntegralMixedStrExp(t, tprime, l1, b1, l2, b2, a, life).out` of
`integration_fns.cpp`. -/
noncomputable def IntegralMixedStrExp
    (Q : Quad) (t tprime l1 b1 l2 b2 a life : ℝ) : ℝ :=
  Q (MixedStrExp t l1 b1 l2 b2 a life) 0 tprime (1e-6)

/-- Configuration of the evaluator: the two fields set by
`Integrator.__init__` in `integrator.pyx`. -/
structure Integrator where
  life : ℝ
  pulse_len : ℝ

/-- Constructor `Integrator.__init__(lifetime, pulse_len)` of
`integrator.pyx`: it only stores the two values, with no validation, so
construction always succeeds.  The `Except` result type records that a
failing constructor was expressible (Cython propagates exceptions), yet the
source never produces the error case. -/
def Integrator.init (lifetime pulse_len : ℝ) : Except String Integrator :=
  .ok ⟨lifetime, pulse_len⟩

/-- Normalization factor `prefac = life*(1.-exp(-t/life))` computed per
element in both loops of `integrator.pyx`. -/
noncomputable def prefac (life t : ℝ) : ℝ :=
  life * (1 - Real.exp (-t / life))

/-- Result value of one output element: either the `np.inf` sentinel or a
finite double. -/
inductive Val where
  | inf : Val
  | fin : ℝ → Val

/-- Body of the loop of `Integrator.pulsed_str_exp` for a single time `t`
(lines 75-97 of `integrator.pyx`): sentinel when `prefac == 0`, otherwise
the during-pulse or after-pulse formula. -/
noncomputable def Integrator.pulsedElem (I : Integrator) (Q : Quad)
    (Lambda Beta amp offset : ℝ) (t : ℝ) : Val :=
  if prefac I.life t = 0 then
    Val.inf
  else if t < I.pulse_len then
    Val.fin (amp * IntegralStrExp Q t t Lambda Beta I.life / prefac I.life t
      + offset)
  else
    Val.fin (amp / prefac I.life t * IntegralStrExp Q t I.pulse_len Lambda
      Beta I.life * Real.exp ((t - I.pulse_len) / I.life) + offset)

/-- `Integrator.pulsed_str_exp(time, Lambda, Beta, amp, offset)` of
`integrator.pyx`: one output element per input time, each produced by the
loop body `pulsedElem`. -/
noncomputable def Integrator.pulsed_str_exp (I : Integrator) (Q : Quad)
    (time : List ℝ) (Lambda Beta amp offset : ℝ) : List Val :=
  time.map (I.pulsedElem Q Lambda Beta amp offset)

/-- Body of the loop of `Integrator.mixed_pulsed_str_exp` for a single time
`t` (lines 132-156 of `integrator.pyx`); note the absence of an offset
term. -/
noncomputable def Integrator.mixedElem (I : Integrator) (Q : Quad)
    (Lambda1 Beta1 Lambda2 Beta2 alpha amp : ℝ) (t : ℝ) : Val :=
  if prefac I.life t = 0 then
    Val.inf
  else if t < I.pulse_len then
    Val.fin (amp * IntegralMixedStrExp Q t t Lambda1 Beta1 Lambda2 Beta2
      alpha I.life / prefac I.life t)
  else
    Val.fin (amp / prefac I.life t * IntegralMixedStrExp Q t I.pulse_len
      Lambda1 Beta1 Lambda2 Beta2 alpha I.life *
      Real.exp ((t - I.pulse_len) / I.life))

/-- `Integrator.mixed_pulsed_str_exp(time, Lambda1, Beta1, Lambda2, Beta2,
alpha, amp)` of `integrator.pyx`. -/
noncomputable def Integrator.mixed_pulsed_str_exp (I : Integrator) (Q : Quad)
    (time : List ℝ) (Lambda1 Beta1 Lambda2 Beta2 alpha amp : ℝ) : List Val :=
  time.map (I.mixedElem Q Lambda1 Beta1 Lambda2 Beta2 alpha amp)

/-- Claim C4: the single-component integrand equals
`exp((tprime - t)/life) * exp(-(lambda*(t - tprime))^beta)` for every value
of the integration variable and of the parameters. -/
theorem C4_single_kernel (t' t Lambda Beta life : ℝ) :
    StrExp t Lambda Beta life t' =
      Real.exp ((t' - t) / life) *
        Real.exp (-((Lambda * (t - t')) ^ Beta)) := by
  unfold StrExp
  rw [mul_comm (t - t') Lambda]

/-- Claim C5: the two-component integrand equals the weighted sum
`exp((tprime - t)/life) * (alpha*exp(-(l1*(t-tprime))^b1) + (1-alpha)*exp(-(l2*(t-tprime))^b2))`
for every value of the integration variable and of the parameters. -/
theorem C5_mixed_kernel (t' t Lambda1 Beta1 Lambda2 Beta2 alpha life : ℝ) :
    MixedStrExp t Lambda1 Beta1 Lambda2 Beta2 alpha life t' =
      Real.exp ((t' - t) / life) *
        (alpha * Real.exp (-((Lambda1 * (t - t')) ^ Beta1)) +
          (1 - alpha) * Real.exp (-((Lambda2 * (t - t')) ^ Beta2))) := by
  unfold MixedStrExp
  rw [mul_comm (t - t') Lambda1, mul_comm (t - t') Lambda2]

/-- Trivial quadrature engine used as a concrete instance in witnesses. -/
def Q0 : Quad := fun _ _ _ _ => 0

/-- Claim C1: whenever `prefac = life*(1 - exp(-t/life))` is zero, both
public operations write the `+infinity` sentinel for that element, and the
element's value does not depend on the quadrature engine at all (no
integration is performed). -/
theorem C1_prefac_zero_sentinel (I : Integrator) (Q Q' : Quad)
    (Lambda Beta amp offset Lambda1 Beta1 Lambda2 Beta2 alpha amp' t : ℝ)
    (h : prefac I.life t = 0) :
    I.pulsedElem Q Lambda Beta amp offset t = Val.inf ∧
    I.mixedElem Q Lambda1 Beta1 Lambda2 Beta2 alpha amp' t = Val.inf ∧
    I.pulsedElem Q Lambda Beta amp offset t =
      I.pulsedElem Q' Lambda Beta amp offset t ∧
    I.mixedElem Q Lambda1 Beta1 Lambda2 Beta2 alpha amp' t =
      I.mixedElem Q' Lambda1 Beta1 Lambda2 Beta2 alpha amp' t := by
  unfold Integrator.pulsedElem Integrator.mixedElem
  simp [h]

/-- Witness for C1 at `t = 0` with `life = 1`, `pulse_len = 4`: the
prefactor vanishes and both operations emit the sentinel. -/
theorem C1_witness :
    prefac (1 : ℝ) 0 = 0 ∧
    (Integrator.mk 1 4).pulsedElem Q0 1 1 1 0 0 = Val.inf ∧
    (Integrator.mk 1 4).mixedElem Q0 1 1 2 1 (1/2) 1 0 = Val.inf := by
  have h : prefac (1 : ℝ) 0 = 0 := by simp [prefac]
  have hc := C1_prefac_zero_sentinel (Integrator.mk 1 4) Q0 Q0
    1 1 1 0 1 1 2 1 (1/2) 1 0 h
  exact ⟨h, hc.1, hc.2.1⟩

/-- Claim C2: with a nonzero prefactor and `t < pulse_len` (during pulse),
the single-component operation asks the quadrature engine for the integral
of the kernel parameterized at `t` over `[0, t]` at tolerance `1e-6` and
writes `amp * I / prefac + offset`. -/
theorem C2_during_pulse (I : Integrator) (Q : Quad)
    (Lambda Beta amp offset t : ℝ)
    (h : prefac I.life t ≠ 0) (hp : t < I.pulse_len) :
    I.pulsedElem Q Lambda Beta amp offset t =
      Val.fin (amp * Q (StrExp t Lambda Beta I.life) 0 t (1e-6) /
        prefac I.life t + offset) := by
  unfold Integrator.pulsedElem IntegralStrExp
  rw [if_neg h, if_pos hp]

/-- Witness for C2 at `t = 1` with `life = 1`, `pulse_len = 2`. -/
theorem C2_witness :
    prefac (1 : ℝ) 1 ≠ 0 ∧ (1 : ℝ) < 2 ∧
    (Integrator.mk 1 2).pulsedElem Q0 3 1 5 7 1 =
      Val.fin (5 * Q0 (StrExp 1 3 1 1) 0 1 (1e-6) / prefac 1 1 + 7) := by
  have hexp : Real.exp (-1 / 1 : ℝ) < 1 := by
    rw [Real.exp_lt_one_iff]; norm_num
  have h : prefac (1 : ℝ) 1 ≠ 0 := by
    unfold prefac
    intro hc
    rw [one_mul] at hc
    linarith
  exact ⟨h, by norm_num,
    C2_during_pulse (Integrator.mk 1 2) Q0 3 1 5 7 1 h (by norm_num)⟩

/-- Claim C3: with a nonzero prefactor and `t >= pulse_len` (after pulse),
the single-component operation asks the quadrature engine for the integral
of the kernel parameterized at `t` over `[0, pulse_len]` at tolerance `1e-6`
and writes `(amp / prefac) * I * exp((t - pulse_len)/life) + offset`. -/
theorem C3_after_pulse (I : Integrator) (Q : Quad)
    (Lambda Beta amp offset t : ℝ)
    (h : prefac I.life t ≠ 0) (hp : I.pulse_len ≤ t) :
    I.pulsedElem Q Lambda Beta amp offset t =
      Val.fin (amp / prefac I.life t *
        Q (StrExp t Lambda Beta I.life) 0 I.pulse_len (1e-6) *
        Real.exp ((t - I.pulse_len) / I.life) + offset) := by
  unfold Integrator.pulsedElem IntegralStrExp
  rw [if_neg h, if_neg (not_lt.mpr hp)]

/-- Witness for C3 at `t = 3` with `life = 1`, `pulse_len = 2`. -/
theorem C3_witness :
    prefac (1 : ℝ) 3 ≠ 0 ∧ (2 : ℝ) ≤ 3 ∧
    (Integrator.mk 1 2).pulsedElem Q0 3 1 5 7 3 =
      Val.fin (5 / prefac 1 3 * Q0 (StrExp 3 3 1 1) 0 2 (1e-6) *
        Real.exp ((3 - 2) / 1) + 7) := by
  have hexp : Real.exp (-3 / 1 : ℝ) < 1 := by
    rw [Real.exp_lt_one_iff]; norm_num
  have h : prefac (1 : ℝ) 3 ≠ 0 := by
    unfold prefac
    intro hc
    rw [one_mul] at hc
    linarith
  exact ⟨h, by norm_num,
    C3_after_pulse (Integrator.mk 1 2) Q0 3 1 5 7 3 h (by norm_num)⟩

/-- Claim C6: with a nonzero prefactor, the mixed operation's output element
carries no additive offset in either phase: during pulse it is
`amp * I / prefac`, after pulse `(amp / prefac) * I * exp((t - pulse_len)/life)`,
with no constant added. -/
theorem C6_mixed_no_offset (I : Integrator) (Q : Quad)
    (Lambda1 Beta1 Lambda2 Beta2 alpha amp t : ℝ)
    (h : prefac I.life t ≠ 0) :
    (t < I.pulse_len →
      I.mixedElem Q Lambda1 Beta1 Lambda2 Beta2 alpha amp t =
        Val.fin (amp *
          Q (MixedStrExp t Lambda1 Beta1 Lambda2 Beta2 alpha I.life) 0 t
            (1e-6) / prefac I.life t)) ∧
    (I.pulse_len ≤ t →
      I.mixedElem Q Lambda1 Beta1 Lambda2 Beta2 alpha amp t =
        Val.fin (amp / prefac I.life t *
          Q (MixedStrExp t Lambda1 Beta1 Lambda2 Beta2 alpha I.life) 0
            I.pulse_len (1e-6) *
          Real.exp ((t - I.pulse_len) / I.life))) := by
  constructor
  · intro hp
    unfold Integrator.mixedElem IntegralMixedStrExp
    rw [if_neg h, if_pos hp]
  · intro hp
    unfold Integrator.mixedElem IntegralMixedStrExp
    rw [if_neg h, if_neg (not_lt.mpr hp)]

/-- Witness for C6 at `t = 1` with `life = 1`, `pulse_len = 2` (during
pulse). -/
theorem C6_witness :
    prefac (1 : ℝ) 1 ≠ 0 ∧ (1 : ℝ) < 2 ∧
    (Integrator.mk 1 2).mixedElem Q0 3 1 4 1 (1/2) 5 1 =
      Val.fin (5 * Q0 (MixedStrExp 1 3 1 4 1 (1/2) 1) 0 1 (1e-6) /
        prefac 1 1) := by
  have hexp : Real.exp (-1 / 1 : ℝ) < 1 := by
    rw [Real.exp_lt_one_iff]; norm_num
  have h : prefac (1 : ℝ) 1 ≠ 0 := by
    unfold prefac
    intro hc
    rw [one_mul] at hc
    linarith
  exact ⟨h, by norm_num,
    (C6_mixed_no_offset (Integrator.mk 1 2) Q0 3 1 4 1 (1/2) 5 1 h).1
      (by norm_num)⟩

/-- Claim C7 counterexample: construction with `life = -1` (so `life <= 0`)
and `pulse_len = -1 < 0` does not fail: it returns the configuration
unchanged, and evaluation on it is possible (here it yields a finite value
at `t = 1`). -/
theorem C7_counterexample :
    Integrator.init (-1) (-1) = Except.ok (Integrator.mk (-1) (-1)) ∧
    (Integrator.mk (-1) (-1)).pulsedElem Q0 1 1 1 0 1 = Val.fin 0 := by
  refine ⟨rfl, ?_⟩
  have hexp : (1 : ℝ) < Real.exp (-(1 : ℝ) / (-1)) := by
    rw [Real.one_lt_exp_iff]; norm_num
  have h : prefac (-1 : ℝ) 1 ≠ 0 := by
    unfold prefac
    intro hc
    nlinarith
  unfold Integrator.pulsedElem IntegralStrExp Q0
  rw [if_neg h, if_neg (by norm_num : ¬ (1 : ℝ) < -1)]
  norm_num

/-- Claim C7 amended: `Integrator.__init__` performs no validation at all;
construction succeeds for every pair of arguments, including `life <= 0` and
`pulse_len < 0`, storing the values unchanged. -/
theorem C7_no_validation (lifetime pulse_len : ℝ) :
    Integrator.init lifetime pulse_len =
      Except.ok (Integrator.mk lifetime pulse_len) := rfl

/-- The mixed integrand at `alpha = 1` coincides with the single-component
integrand at `(Lambda1, Beta1)`. -/
theorem mixedStrExp_alpha_one (t Lambda1 Beta1 Lambda2 Beta2 life : ℝ) :
    MixedStrExp t Lambda1 Beta1 Lambda2 Beta2 1 life =
      StrExp t Lambda1 Beta1 life := by
  funext tprime
  unfold MixedStrExp StrExp
  ring

/-- The mixed integrand at `alpha = 0` coincides with the single-component
integrand at `(Lambda2, Beta2)`. -/
theorem mixedStrExp_alpha_zero (t Lambda1 Beta1 Lambda2 Beta2 life : ℝ) :
    MixedStrExp t Lambda1 Beta1 Lambda2 Beta2 0 life =
      StrExp t Lambda2 Beta2 life := by
  funext tprime
  unfold MixedStrExp StrExp
  ring

/-- One element of the mixed operation at `alpha = 1` equals the
single-component element with `offset = 0`. -/
theorem mixedElem_alpha_one (I : Integrator) (Q : Quad)
    (Lambda1 Beta1 Lambda2 Beta2 amp t : ℝ) :
    I.mixedElem Q Lambda1 Beta1 Lambda2 Beta2 1 amp t =
      I.pulsedElem Q Lambda1 Beta1 amp 0 t := by
  unfold Integrator.mixedElem Integrator.pulsedElem IntegralMixedStrExp
    IntegralStrExp
  rw [mixedStrExp_alpha_one]
  simp

/-- One element of the mixed operation at `alpha = 0` equals the
single-component element for the second parameter pair with `offset = 0`. -/
theorem mixedElem_alpha_zero (I : Integrator) (Q : Quad)
    (Lambda1 Beta1 Lambda2 Beta2 amp t : ℝ) :
    I.mixedElem Q Lambda1 Beta1 Lambda2 Beta2 0 amp t =
      I.pulsedElem Q Lambda2 Beta2 amp 0 t := by
  unfold Integrator.mixedElem Integrator.pulsedElem IntegralMixedStrExp
    IntegralStrExp
  rw [mixedStrExp_alpha_zero]
  simp

/-- Claim C8: for every time sequence and parameter set, the mixed operation
at `alpha = 1` returns exactly the single-component output for
`(Lambda1, Beta1, amp, offset = 0)`, and at `alpha = 0` exactly the
single-component output for `(Lambda2, Beta2, amp, offset = 0)`. -/
theorem C8_mixing_consistency (I : Integrator) (Q : Quad)
    (Lambda1 Beta1 Lambda2 Beta2 amp : ℝ) (time : List ℝ) :
    I.mixed_pulsed_str_exp Q time Lambda1 Beta1 Lambda2 Beta2 1 amp =
      I.pulsed_str_exp Q time Lambda1 Beta1 amp 0 ∧
    I.mixed_pulsed_str_exp Q time Lambda1 Beta1 Lambda2 Beta2 0 amp =
      I.pulsed_str_exp Q time Lambda2 Beta2 amp 0 := by
  unfold Integrator.mixed_pulsed_str_exp Integrator.pulsed_str_exp
  constructor
  · rw [funext (mixedElem_alpha_one I Q Lambda1 Beta1 Lambda2 Beta2 amp)]
  · rw [funext (mixedElem_alpha_zero I Q Lambda1 Beta1 Lambda2 Beta2 amp)]

/-- Claim C9: both operations return one output element per input time, the
element at index `i` being the loop body applied to the time at index `i`
alone (so each element depends only on its own time and the shared
parameters, and order of evaluation is irrelevant). -/
theorem C9_shape_and_independence (I : Integrator) (Q : Quad)
    (Lambda Beta amp offset Lambda1 Beta1 Lambda2 Beta2 alpha amp' : ℝ)
    (time : List ℝ) :
    (I.pulsed_str_exp Q time Lambda Beta amp offset).length = time.length ∧
    (I.mixed_pulsed_str_exp Q time Lambda1 Beta1 Lambda2 Beta2 alpha
      amp').length = time.length ∧
    (∀ i : ℕ, (I.pulsed_str_exp Q time Lambda Beta amp offset)[i]? =
      (time[i]?).map (I.pulsedElem Q Lambda Beta amp offset)) ∧
    (∀ i : ℕ,
      (I.mixed_pulsed_str_exp Q time Lambda1 Beta1 Lambda2 Beta2 alpha
        amp')[i]? =
      (time[i]?).map (I.mixedElem Q Lambda1 Beta1 Lambda2 Beta2 alpha
        amp')) := by
  refine ⟨?_, ?_, ?_, ?_⟩ <;>
    simp [Integrator.pulsed_str_exp, Integrator.mixed_pulsed_str_exp]

/-- Claim C10: for `t < 0` with `life > 0` and `pulse_len >= 0`, the
prefactor is strictly negative (hence nonzero: no sentinel, no error), both
operations take the during-pulse branch, and the quadrature engine is asked
for an integral from `0` down to `t < 0` (reversed bounds) whose value is
written at that index. -/
theorem C10_negative_time (I : Integrator) (Q : Quad)
    (Lambda Beta amp offset Lambda1 Beta1 Lambda2 Beta2 alpha amp' t : ℝ)
    (hlife : 0 < I.life) (hpl : 0 ≤ I.pulse_len) (ht : t < 0) :
    prefac I.life t < 0 ∧
    I.pulsedElem Q Lambda Beta amp offset t =
      Val.fin (amp * Q (StrExp t Lambda Beta I.life) 0 t (1e-6) /
        prefac I.life t + offset) ∧
    I.mixedElem Q Lambda1 Beta1 Lambda2 Beta2 alpha amp' t =
      Val.fin (amp' *
        Q (MixedStrExp t Lambda1 Beta1 Lambda2 Beta2 alpha I.life) 0 t
          (1e-6) / prefac I.life t) := by
  have hneg : prefac I.life t < 0 := by
    unfold prefac
    have h1 : (1 : ℝ) < Real.exp (-t / I.life) := by
      rw [Real.one_lt_exp_iff]
      exact div_pos (by linarith) hlife
    have h2 : 1 - Real.exp (-t / I.life) < 0 := by linarith
    exact mul_neg_of_pos_of_neg hlife h2
  have hne : prefac I.life t ≠ 0 := ne_of_lt hneg
  have hp : t < I.pulse_len := lt_of_lt_of_le ht hpl
  refine ⟨hneg, ?_, ?_⟩
  · unfold Integrator.pulsedElem IntegralStrExp
    rw [if_neg hne, if_pos hp]
  · unfold Integrator.mixedElem IntegralMixedStrExp
    rw [if_neg hne, if_pos hp]

/-- Witness for C10 at `t = -1` with `life = 1`, `pulse_len = 0`. -/
theorem C10_witness :
    (0 : ℝ) < 1 ∧ (0 : ℝ) ≤ 0 ∧ (-1 : ℝ) < 0 ∧
    prefac (1 : ℝ) (-1) < 0 ∧
    (Integrator.mk 1 0).pulsedElem Q0 1 1 1 0 (-1) =
      Val.fin (1 * Q0 (StrExp (-1) 1 1 1) 0 (-1) (1e-6) /
        prefac 1 (-1) + 0) := by
  have hc := C10_negative_time (Integrator.mk 1 0) Q0 1 1 1 0 1 1 2 1 (1/2)
    1 (-1) (by norm_num : (0 : ℝ) < 1) (by norm_num : (0 : ℝ) ≤ 0)
    (by norm_num : (-1 : ℝ) < 0)
  exact ⟨by norm_num, by norm_num, by norm_num, hc.1, hc.2.1⟩

end Bdata
